import Mathlib

/-!
Verification of the 2giants-cli repository: a shallow embedding in Lean 4 of
the intent router (`src/twogiants/agents/router.py`), the orchestrator
(`src/twogiants/main.py`) and the file/shell tool functions
(`src/twogiants/tools/file_tools.py`, `src/twogiants/tools/shell_tools.py`),
together with theorems settling the specification claims.

External effects are modelled explicitly:
- the hosted-model completion capability is an oracle value of type
  `Except String String` (an exception message, or the generated text);
- the filesystem is an explicit `FS` state record, and Python exceptions are
  an explicit `PyExc` type threaded through `Except`;
- each Python tool's try/except structure is embedded as a match on the
  body's `Except` result, with one arm per except clause, so that "the tool
  never raises to its caller" is the proposition that the wrapped result is
  always `Except.ok`.
-/

namespace TwoGiantsCli

/-! ## Python string primitives (embeddings of `str` methods used by the code) -/

/-- Does the pattern occur at the head of the list? (`str.startswith` at one
position; used to embed substring search). -/
def startsWithL : List Char → List Char → Bool
  | [], _ => true
  | _ :: _, [] => false
  | a :: as, b :: bs => a == b && startsWithL as bs

/-- Python `sub in s` on character lists: `sub` occurs as a contiguous
substring (the empty pattern is contained in everything, as in Python). -/
def containsSubL : List Char → List Char → Bool
  | sub, [] => sub.isEmpty
  | sub, c :: t => startsWithL sub (c :: t) || containsSubL sub t

/-- Python `sub in s` on strings. -/
def pyContains (sub s : String) : Bool := containsSubL sub.data s.data

/-- Python `str.strip()`: remove leading and trailing whitespace. -/
def pyStrip (s : String) : String :=
  (((s.data.dropWhile Char.isWhitespace).reverse.dropWhile Char.isWhitespace).reverse).asString

/-- Python `str.lower()`. -/
def pyLower (s : String) : String := (s.data.map Char.toLower).asString

/-! ## Intent router (`RouterAgent.route`, router.py lines 29-60)

The completion call `self.llm.invoke(prompt)` is modelled by the oracle
argument: `.error m` is the call raising an exception with message `m`,
`.ok content` is a reply whose `.content` is `content`. -/

/-- The three-element route enumeration checked by the router
(router.py line 46). -/
def routeNames : List String := ["conversation", "executor", "research"]

namespace RouterAgent

/-- Embedding of `RouterAgent.route` (router.py lines 29-60): invoke the
completion oracle; on success, trim and lowercase the reply and validate it
against the three-element set, defaulting to `"conversation"` when it is not
a member; on any exception, default to `"conversation"`. -/
def route (completion : Except String String) : String :=
  match completion with
  | .error _ => "conversation"
  | .ok content =>
    let r := pyLower (pyStrip content)
    if r == "conversation" || r == "executor" || r == "research" then r
    else "conversation"

end RouterAgent

/-! ## Orchestrator (`TwoGiants.execute`, main.py lines 52-160)

Each branch handler's `self.llm.invoke(...)` is modelled by a per-branch
oracle.  Alongside the reply string, the embedding counts how many
branch-handler completion invocations were made (the router's own
classification call is not a branch call). -/

/-- The completion-capability oracles consulted by one `execute` turn:
the router's classification reply and the two branch handlers' replies. -/
structure LLMOracles where
  routerReply : Except String String
  conversationReply : Except String String
  researchReply : Except String String

namespace TwoGiants

/-- The text before the echoed utterance in `_handle_executor`'s static
reply (main.py lines 125-127). -/
def executorMsgHead : String :=
  "🚧 Executor Agent (Coming Soon)\n\nI understand you want to execute: \""

/-- The text after the echoed utterance in `_handle_executor`'s static
reply (main.py lines 127-136). -/
def executorMsgTail : String :=
  "\"\n\nThe Executor Agent will:\n1. Plan the execution steps\n2. Assess risks for each step\n3. Show you the plan\n4. Wait for your approval\n5. Execute approved commands\n\nThis feature is being implemented. For now, you can ask me questions about what this command would do!"

/-- Banner placed before the model text by `_handle_research`
(main.py line 156). -/
def researchMsgHead : String := "🔍 Research Mode (Basic - Web search coming soon)\n\n"

/-- Note placed after the model text by `_handle_research`
(main.py lines 158-160). -/
def researchMsgTail : String :=
  "\n\n💡 Note: Full research capabilities with web search and documentation indexing are being implemented."

/-- The orchestrator's error-conversion format (main.py line 96). -/
def errorReplyHead : String := "Sorry, I encountered an error: "

/-- Embedding of `TwoGiants._handle_conversation` (main.py lines 98-116):
one completion invocation, returning the model text verbatim.  The pair's
second component is the number of completion invocations made. -/
def handle_conversation (o : LLMOracles) : Except String String × Nat :=
  (o.conversationReply, 1)

/-- Embedding of `TwoGiants._handle_executor` (main.py lines 118-136): a
fixed static string echoing the utterance; no completion invocation. -/
def handle_executor (prompt : String) : String :=
  executorMsgHead ++ prompt ++ executorMsgTail

/-- Embedding of `TwoGiants._handle_research` (main.py lines 138-160): one
completion invocation, wrapped in the fixed research banner and note. -/
def handle_research (o : LLMOracles) : Except String String × Nat :=
  (o.researchReply.map (fun text => researchMsgHead ++ text ++ researchMsgTail), 1)

/-- Embedding of `TwoGiants.execute` (main.py lines 52-96): route the prompt,
dispatch on the three-way string comparison (with the defensive fallback to
the conversation handler), and convert any exception escaping a branch
handler into the `"Sorry, I encountered an error: ..."` string.  Returns the
reply together with the number of branch-handler completion invocations. -/
def execute (o : LLMOracles) (prompt : String) : String × Nat :=
  let route := RouterAgent.route o.routerReply
  let branch : Except String String × Nat :=
    if route == "conversation" then handle_conversation o
    else if route == "executor" then (.ok (handle_executor prompt), 0)
    else if route == "research" then handle_research o
    else handle_conversation o
  match branch with
  | (.ok s, n) => (s, n)
  | (.error e, n) => (errorReplyHead ++ e, n)

end TwoGiants

/-! ## Theorems for claims C1, C2, C3 -/

/-- Helper: the router's reply on a successful completion, in if-then-else
form over propositional equalities. -/
theorem route_ok_eq (t : String) :
    RouterAgent.route (.ok t) =
      (if pyLower (pyStrip t) = "conversation" ∨ pyLower (pyStrip t) = "executor"
          ∨ pyLower (pyStrip t) = "research"
       then pyLower (pyStrip t) else "conversation") := by
  show (let r := pyLower (pyStrip t);
        if r == "conversation" || r == "executor" || r == "research" then r
        else "conversation") = _
  simp only [Bool.or_eq_true, beq_iff_eq]
  split <;> split <;> simp_all

/-- C1: for every utterance, `Router.route` returns a value in the
three-element set {conversation, executor, research}; whenever the completion
call raises any exception, or returns text whose trimmed and lowercased form
is not in that set, `route` returns `"conversation"` (and, being a total Lean
function, never raises); when the normalized reply is in the set, it is
returned as the route. -/
theorem C1_router_route_total_fallback (c : Except String String) :
    (RouterAgent.route c = "conversation" ∨ RouterAgent.route c = "executor"
      ∨ RouterAgent.route c = "research")
    ∧ (∀ m, c = .error m → RouterAgent.route c = "conversation")
    ∧ (∀ t, c = .ok t →
        ((pyLower (pyStrip t) = "conversation" ∨ pyLower (pyStrip t) = "executor"
            ∨ pyLower (pyStrip t) = "research") →
          RouterAgent.route c = pyLower (pyStrip t))
        ∧ (¬(pyLower (pyStrip t) = "conversation" ∨ pyLower (pyStrip t) = "executor"
            ∨ pyLower (pyStrip t) = "research") →
          RouterAgent.route c = "conversation")) := by
  refine ⟨?_, ?_, ?_⟩
  · cases c with
    | error m => exact Or.inl rfl
    | ok t =>
      rw [route_ok_eq]
      split
      · assumption
      · exact Or.inl rfl
  · intro m hm; subst hm; rfl
  · intro t ht; subst ht
    constructor
    · intro h; rw [route_ok_eq, if_pos h]
    · intro h; rw [route_ok_eq, if_neg h]

/-- Witness for C1 at concrete inputs: a valid (unnormalized) reply is
returned normalized, and a raised completion fault yields the default. -/
theorem C1_router_route_total_fallback_witness :
    RouterAgent.route (.ok "  EXECUTOR \n") = "executor"
    ∧ RouterAgent.route (.error "timeout") = "conversation" := by
  constructor
  · have h := (C1_router_route_total_fallback (.ok "  EXECUTOR \n")).2.2
      "  EXECUTOR \n" rfl
    have hn : pyLower (pyStrip "  EXECUTOR \n") = "executor" := by decide
    have := h.1 (by rw [hn]; exact Or.inr (Or.inl rfl))
    rwa [hn] at this
  · exact (C1_router_route_total_fallback (.error "timeout")).2.1 "timeout" rfl

/-- C2: any exception raised by a branch handler's completion call inside
`TwoGiants.execute` is caught at the orchestrator boundary and converted into
the string `"Sorry, I encountered an error: {message}"`; `execute` is a total
function (it never propagates a raw fault), and even a fault raised by the
router's own completion call does not escape: it is absorbed by the router's
default and `execute` proceeds down the conversation branch. -/
theorem C2_execute_catches_branch_faults (o : LLMOracles) (p m : String) :
    (((RouterAgent.route o.routerReply = "conversation"
          ∧ o.conversationReply = .error m)
        ∨ (RouterAgent.route o.routerReply = "research"
          ∧ o.researchReply = .error m)) →
      (TwoGiants.execute o p).1 = TwoGiants.errorReplyHead ++ m)
    ∧ (∀ c, o.routerReply = .error m → o.conversationReply = .ok c →
        TwoGiants.execute o p = (c, 1)) := by
  constructor
  · rintro (⟨hr, hc⟩ | ⟨hr, hc⟩) <;>
      simp [TwoGiants.execute, TwoGiants.handle_conversation,
        TwoGiants.handle_research, hr, hc, Except.map]
  · intro c hr hc
    have hroute : RouterAgent.route o.routerReply = "conversation" := by
      rw [hr]; rfl
    simp [TwoGiants.execute, TwoGiants.handle_conversation, hroute, hc]

/-- Witness for C2 at concrete inputs: a conversation-branch completion fault
is converted to the error string; a router-completion fault is absorbed and
the conversation branch's reply is returned. -/
theorem C2_execute_catches_branch_faults_witness :
    (TwoGiants.execute
        ⟨.ok "conversation", .error "rate limit", .ok "x"⟩ "hello").1
      = TwoGiants.errorReplyHead ++ "rate limit"
    ∧ TwoGiants.execute ⟨.error "transport", .ok "Hi there!", .ok "x"⟩ "hello"
      = ("Hi there!", 1) := by
  constructor
  · exact (C2_execute_catches_branch_faults
      ⟨.ok "conversation", .error "rate limit", .ok "x"⟩ "hello" "rate limit").1
      (Or.inl ⟨by decide, rfl⟩)
  · exact (C2_execute_catches_branch_faults
      ⟨.error "transport", .ok "Hi there!", .ok "x"⟩ "hello" "transport").2
      "Hi there!" rfl rfl

/-- C3: for every utterance classified as `"executor"`, the orchestrator
makes zero branch completion-capability calls and returns the fixed static
string with the original utterance echoed verbatim inside it; consequently
the result is independent of the branch completion oracles. -/
theorem C3_executor_branch_static (o o' : LLMOracles) (p : String)
    (h : RouterAgent.route o.routerReply = "executor")
    (h' : o'.routerReply = o.routerReply) :
    (TwoGiants.execute o p).1
        = TwoGiants.executorMsgHead ++ p ++ TwoGiants.executorMsgTail
    ∧ (TwoGiants.execute o p).2 = 0
    ∧ TwoGiants.execute o' p = TwoGiants.execute o p := by
  have hbranch : ∀ oo : LLMOracles, RouterAgent.route oo.routerReply = "executor" →
      TwoGiants.execute oo p
        = (TwoGiants.executorMsgHead ++ p ++ TwoGiants.executorMsgTail, 0) := by
    intro oo hh
    simp [TwoGiants.execute, TwoGiants.handle_executor, hh]
  have h1 := hbranch o h
  have h2 := hbranch o' (by rw [h']; exact h)
  rw [h1, h2]
  exact ⟨rfl, rfl, rfl⟩

/-- Witness for C3 at a concrete input: with the classifier replying
`executor`, the result echoes `deploy to production` between the fixed head
and tail, zero branch completion calls are made, and changing the branch
oracles does not change the result. -/
theorem C3_executor_branch_static_witness :
    (TwoGiants.execute ⟨.ok "executor", .ok "a", .ok "b"⟩ "deploy to production").1
      = TwoGiants.executorMsgHead ++ "deploy to production" ++ TwoGiants.executorMsgTail
    ∧ (TwoGiants.execute ⟨.ok "executor", .ok "a", .ok "b"⟩ "deploy to production").2 = 0
    ∧ TwoGiants.execute ⟨.ok "executor", .error "c", .error "d"⟩ "deploy to production"
      = TwoGiants.execute ⟨.ok "executor", .ok "a", .ok "b"⟩ "deploy to production" :=
  C3_executor_branch_static ⟨.ok "executor", .ok "a", .ok "b"⟩
    ⟨.ok "executor", .error "c", .error "d"⟩ "deploy to production"
    (by decide) rfl

/-! ## Python exceptions and path helpers -/

/-- The Python exception kinds that the tool bodies can encounter, each
carrying its `str(e)` message. -/
inductive PyExc where
  | permissionError (msg : String)
  | unicodeDecodeError (msg : String)
  | fileNotFoundError (msg : String)
  | isADirectoryError (msg : String)
  | timeoutExpired (msg : String)
  | indexError (msg : String)
  | importError (msg : String)
  | otherError (msg : String)
deriving DecidableEq, Repr

/-- Python `str(e)` on an exception. -/
def PyExc.str : PyExc → String
  | .permissionError m => m
  | .unicodeDecodeError m => m
  | .fileNotFoundError m => m
  | .isADirectoryError m => m
  | .timeoutExpired m => m
  | .indexError m => m
  | .importError m => m
  | .otherError m => m

/-- Python `os.path.expanduser`: replace a leading `~` by the home
directory (the `~user` form is left unchanged, as a simplification). -/
def expanduser (home p : String) : String :=
  if p == "~" then home
  else if startsWithL "~/".data p.data then home ++ (p.data.drop 1).asString
  else p

/-- `os.path.dirname` on character lists: everything before the last slash
(for a path with no slash, the empty string; the root-preserving special
case of Python is simplified away, which no claim depends on). -/
def dirnameL (s : List Char) : List Char :=
  ((s.reverse.dropWhile (fun c => c != '/')).drop 1).reverse

/-- `os.path.dirname` on strings. -/
def dirname (s : String) : String := (dirnameL s.data).asString

/-- `os.path.basename`: everything after the last slash. -/
def basename (s : String) : String :=
  ((s.data.reverse.takeWhile (fun c => c != '/')).reverse).asString

/-- `os.path.join` for a directory and a relative entry name. -/
def pyJoin (p item : String) : String :=
  if p == "" then item
  else if p.data.getLast? == some '/' then p ++ item
  else p ++ "/" ++ item

/-- `os.path.abspath` relative to a working directory (display helper;
the dot-segment normalization of Python is not needed by any claim). -/
def pyAbspath (cwd p : String) : String :=
  if startsWithL "/".data p.data then p else pyJoin cwd p

/-- Python slice `s[:n]`. -/
def pyTake (n : Nat) (s : String) : String := (s.data.take n).asString

theorem dirnameL_length_lt (s : List Char) (h : s ≠ []) :
    (dirnameL s).length < s.length := by
  unfold dirnameL
  have h1 : (s.reverse.dropWhile (fun c => c != '/')).length ≤ s.length := by
    calc (s.reverse.dropWhile (fun c => c != '/')).length
        ≤ s.reverse.length := (List.dropWhile_sublist _).length_le
      _ = s.length := List.length_reverse s
  have h2 : 0 < s.length := List.length_pos.mpr h
  simp only [List.length_reverse, List.length_drop]
  omega

/-- The chain of directories created by `os.makedirs(p, exist_ok=True)`:
`p` together with all its proper ancestors. -/
def mkdirsPaths (p : String) : List String :=
  if h : p = "" then [] else p :: mkdirsPaths (dirname p)
termination_by p.data.length
decreasing_by
  show (dirnameL p.data).length < p.data.length
  exact dirnameL_length_lt p.data (fun hd => h (by cases p; simp_all))

/-! ## Python `str.splitlines` line count -/

/-- The principal line-boundary characters recognized by
`str.splitlines`. -/
def isLineBreakChar (c : Char) : Bool :=
  c == '\n' || c == '\r' || c == '\x0b' || c == '\x0c'

/-- Drop one line together with its terminating boundary (treating
a `\r\n` pair as a single boundary), as `str.splitlines` does. -/
def dropLine : List Char → List Char
  | [] => []
  | c :: t =>
    if c == '\r' then (if t.head? == some '\n' then t.drop 1 else t)
    else if isLineBreakChar c then t
    else dropLine t

theorem dropLine_length_le : ∀ s : List Char, (dropLine s).length ≤ s.length := by
  intro s
  induction s with
  | nil => simp [dropLine]
  | cons c t ih =>
    simp only [dropLine]
    split
    · split
      · simp only [List.length_drop, List.length_cons]; omega
      · simp
    · split
      · simp
      · simp only [List.length_cons]; omega

theorem dropLine_length_lt (c : Char) (t : List Char) :
    (dropLine (c :: t)).length < (c :: t).length := by
  simp only [dropLine]
  have ht := dropLine_length_le t
  split
  · split
    · simp only [List.length_drop, List.length_cons]; omega
    · simp
  · split
    · simp
    · simp only [List.length_cons]; omega

/-- `len(s.splitlines())` on character lists: one line per boundary, plus
one for a nonempty trailing segment. -/
def pyLineCountL (s : List Char) : Nat :=
  match s with
  | [] => 0
  | c :: t => 1 + pyLineCountL (dropLine (c :: t))
termination_by s.length
decreasing_by simpa using dropLine_length_lt c t

/-- `len(content.splitlines())` on strings. -/
def pyLineCount (s : String) : Nat := pyLineCountL s.data

/-! ## Python `str.count` and `str.replace`

Both work on the leftmost non-overlapping occurrences of the pattern; the
empty pattern matches once at every position (Python's convention). -/

/-- Greedy non-overlapping occurrence count for a nonempty pattern
`p :: ps`. -/
def countAux (p : Char) (ps : List Char) : List Char → Nat
  | [] => 0
  | c :: t =>
    if startsWithL (p :: ps) (c :: t) then 1 + countAux p ps (t.drop ps.length)
    else countAux p ps t
termination_by s => s.length
decreasing_by
  · simp only [List.length_drop, List.length_cons]; omega
  · simp

/-- Python `s.count(pat)`. -/
def pyCountL (pat s : List Char) : Nat :=
  match pat with
  | [] => s.length + 1
  | p :: ps => countAux p ps s

/-- Python `content.count(old_text)` on strings. -/
def pyCount (pat s : String) : Nat := pyCountL pat.data s.data

/-- Greedy non-overlapping replacement for a nonempty pattern `p :: ps`. -/
def replaceAux (p : Char) (ps new : List Char) : List Char → List Char
  | [] => []
  | c :: t =>
    if startsWithL (p :: ps) (c :: t) then new ++ replaceAux p ps new (t.drop ps.length)
    else c :: replaceAux p ps new t
termination_by s => s.length
decreasing_by
  · simp only [List.length_drop, List.length_cons]; omega
  · simp

/-- Python `s.replace(pat, new)` (the empty pattern inserts `new` at every
position, as in Python). -/
def pyReplaceL (pat new s : List Char) : List Char :=
  match pat with
  | [] => new ++ (s.map (fun c => c :: new)).flatten
  | p :: ps => replaceAux p ps new s

/-- Python `content.replace(old_text, new_text)` on strings. -/
def pyReplace (pat new s : String) : String :=
  (pyReplaceL pat.data new.data s.data).asString

/-! ## An independent count of non-overlapping occurrences

`splitOnL` splits at the leftmost occurrences of a nonempty pattern; the
number of occurrences is one less than the number of resulting chunks.  This
is the independent recount that claim C5 compares against the replacement
count computed by the code (which embeds `str.count`). -/

/-- Split off the chunk before the leftmost occurrence of the pattern
`p :: ps`, returning it with the remainder after the occurrence (or `none`
when the pattern does not occur). -/
def splitFirst (p : Char) (ps : List Char) : List Char → Option (List Char × List Char)
  | [] => none
  | c :: t =>
    if startsWithL (p :: ps) (c :: t) then some ([], t.drop ps.length)
    else
      match splitFirst p ps t with
      | none => none
      | some (b, a) => some (c :: b, a)

theorem splitFirst_length_lt (p : Char) (ps : List Char) :
    ∀ (s b a : List Char), splitFirst p ps s = some (b, a) → a.length < s.length := by
  intro s
  induction s with
  | nil => intro b a h; simp [splitFirst] at h
  | cons c t ih =>
    intro b a h
    simp only [splitFirst] at h
    split at h
    · cases h
      simp only [List.length_drop, List.length_cons]; omega
    · cases hm : splitFirst p ps t with
      | none => rw [hm] at h; cases h
      | some ba =>
        obtain ⟨b2, a2⟩ := ba
        rw [hm] at h
        simp only [Option.some.injEq, Prod.mk.injEq] at h
        obtain ⟨h1, h2⟩ := h
        subst h1
        subst h2
        have := ih b2 a2 hm
        simp only [List.length_cons]
        omega

/-- Split a list at every leftmost non-overlapping occurrence of the
nonempty pattern `p :: ps`. -/
def splitOnL (p : Char) (ps : List Char) (s : List Char) : List (List Char) :=
  match h : splitFirst p ps s with
  | none => [s]
  | some (b, a) => b :: splitOnL p ps a
termination_by s.length
decreasing_by exact splitFirst_length_lt p ps s b a h

theorem splitOnL_of_none (p : Char) (ps s : List Char)
    (h : splitFirst p ps s = none) : splitOnL p ps s = [s] := by
  conv_lhs => rw [splitOnL.eq_def]
  split <;> simp_all

theorem splitOnL_of_some (p : Char) (ps s b a : List Char)
    (h : splitFirst p ps s = some (b, a)) :
    splitOnL p ps s = b :: splitOnL p ps a := by
  conv_lhs => rw [splitOnL.eq_def]
  split <;> simp_all

theorem splitOnL_ne_nil (p : Char) (ps s : List Char) : splitOnL p ps s ≠ [] := by
  cases h : splitFirst p ps s with
  | none => rw [splitOnL_of_none p ps s h]; simp
  | some ba => rw [splitOnL_of_some p ps s ba.1 ba.2 (by rw [h])]; simp

/-- The independent recount of non-overlapping occurrences: one less than
the number of chunks produced by splitting on the pattern (with Python's
convention for the empty pattern). -/
def countIndep (pat s : String) : Nat :=
  match pat.data with
  | [] => s.data.length + 1
  | p :: ps => (splitOnL p ps s.data).length - 1

theorem countAux_of_splitFirst_none (p : Char) (ps : List Char) :
    ∀ s, splitFirst p ps s = none → countAux p ps s = 0 := by
  intro s
  induction s with
  | nil => intro _; simp [countAux]
  | cons c t ih =>
    intro h
    simp only [splitFirst] at h
    simp only [countAux]
    split at h
    · cases h
    · split
      · simp_all
      · cases hm : splitFirst p ps t with
        | none => exact ih hm
        | some ba => rw [hm] at h; cases h

theorem countAux_of_splitFirst_some (p : Char) (ps : List Char) :
    ∀ s b a, splitFirst p ps s = some (b, a) →
      countAux p ps s = 1 + countAux p ps a := by
  intro s
  induction s with
  | nil => intro b a h; simp [splitFirst] at h
  | cons c t ih =>
    intro b a h
    simp only [splitFirst] at h
    simp only [countAux]
    split at h
    · cases h
      simp_all
    · split
      · simp_all
      · cases hm : splitFirst p ps t with
        | none => rw [hm] at h; cases h
        | some ba =>
          obtain ⟨b2, a2⟩ := ba
          rw [hm] at h
          simp only [Option.some.injEq, Prod.mk.injEq] at h
          obtain ⟨h1, h2⟩ := h
          subst h1
          subst h2
          exact ih b2 a2 hm

theorem countAux_eq_splitOnL_length (p : Char) (ps : List Char) :
    ∀ n (s : List Char), s.length ≤ n →
      countAux p ps s = (splitOnL p ps s).length - 1 := by
  intro n
  induction n with
  | zero =>
    intro s hs
    have hnil : s = [] := List.length_eq_zero.mp (Nat.le_zero.mp hs)
    subst hnil
    rw [splitOnL_of_none p ps [] rfl]
    simp [countAux]
  | succ n ih =>
    intro s hs
    cases hsf : splitFirst p ps s with
    | none =>
      rw [countAux_of_splitFirst_none p ps s hsf, splitOnL_of_none p ps s hsf]
      simp
    | some ba =>
      obtain ⟨b, a⟩ := ba
      rw [countAux_of_splitFirst_some p ps s b a hsf,
        splitOnL_of_some p ps s b a hsf]
      have hlt := splitFirst_length_lt p ps s b a hsf
      have ha : a.length ≤ n := by omega
      have hrec := ih a ha
      have hpos : 0 < (splitOnL p ps a).length :=
        List.length_pos.mpr (splitOnL_ne_nil p ps a)
      simp only [List.length_cons]
      omega

/-- The code's replacement count (`str.count`) agrees with the independent
split-based recount of non-overlapping occurrences. -/
theorem pyCount_eq_countIndep (pat s : String) : pyCount pat s = countIndep pat s := by
  unfold pyCount pyCountL countIndep
  cases pat.data with
  | nil => rfl
  | cons p ps => exact countAux_eq_splitOnL_length p ps s.data.length s.data le_rfl

/-! ## Sorting (Python `list.sort` / `sorted` on strings)

Python compares strings lexicographically by code point; the embedding
compares the underlying character lists with the lexicographic order. -/

/-- The string order used by Python's `sorted`: lexicographic comparison of
the character sequences. -/
def strLeData (a b : String) : Prop := a.data ≤ b.data

instance : DecidableRel strLeData := fun a b =>
  (inferInstance : Decidable (a.data ≤ b.data))

instance : IsTotal String strLeData := ⟨fun a b => le_total a.data b.data⟩

instance : IsTrans String strLeData := ⟨fun _ _ _ h1 h2 => le_trans h1 h2⟩

/-- Embedding of Python's `sorted` / `list.sort` on a list of strings (a
stable sort by the lexicographic code-point order). -/
def sortStr (l : List String) : List String := List.insertionSort strLeData l

theorem sortStr_sorted (l : List String) : (sortStr l).Sorted strLeData :=
  List.sorted_insertionSort strLeData l

theorem sortStr_perm (l : List String) : (sortStr l).Perm l :=
  List.perm_insertionSort strLeData l

theorem mem_sortStr {l : List String} {x : String} : x ∈ sortStr l ↔ x ∈ l :=
  List.mem_insertionSort strLeData

/-! ## Filesystem model

Paths are strings; a filesystem state carries the text files (with their
content), the directories, the paths on which reads or writes raise
`PermissionError`, and the paths whose content raises `UnicodeDecodeError`
when opened in text mode. -/

structure FS where
  files : List (String × String)
  dirs : List String
  readDenied : List String
  writeDenied : List String
  binary : List String
deriving DecidableEq, Repr

namespace FS

/-- Content of the file at `p`, if any. -/
def getContent (fs : FS) (p : String) : Option String :=
  (fs.files.find? (fun kv => kv.1 == p)).map (·.2)

/-- `os.path.isfile`. -/
def isFile (fs : FS) (p : String) : Bool := fs.files.any (fun kv => kv.1 == p)

/-- `os.path.isdir`. -/
def isDir (fs : FS) (p : String) : Bool := fs.dirs.contains p

/-- `os.path.exists`. -/
def pathExists (fs : FS) (p : String) : Bool := fs.isFile p || fs.isDir p

/-- `os.path.getsize` (UTF-8 byte size of the stored content). -/
def getsize (fs : FS) (p : String) : Nat :=
  ((fs.getContent p).getD "").utf8ByteSize

/-- `open(p, 'r', encoding='utf-8').read()`: may raise `PermissionError`,
`UnicodeDecodeError` or `FileNotFoundError`. -/
def readText (fs : FS) (p : String) : Except PyExc String :=
  if fs.readDenied.contains p then
    .error (.permissionError ("[Errno 13] Permission denied: " ++ p))
  else if fs.binary.contains p then
    .error (.unicodeDecodeError "invalid start byte")
  else
    match fs.getContent p with
    | some c => .ok c
    | none => .error (.fileNotFoundError ("[Errno 2] No such file or directory: " ++ p))

/-- Replace or append one file binding. -/
def setFile : List (String × String) → String → String → List (String × String)
  | [], p, c => [(p, c)]
  | kv :: t, p, c => if kv.1 == p then (p, c) :: t else kv :: setFile t p c

/-- `open(p, 'w', encoding='utf-8').write(c)`: may raise `PermissionError`
or `IsADirectoryError`; otherwise stores the content. -/
def writeText (fs : FS) (p c : String) : Except PyExc FS :=
  if fs.writeDenied.contains p then
    .error (.permissionError ("[Errno 13] Permission denied: " ++ p))
  else if fs.isDir p then
    .error (.isADirectoryError ("[Errno 21] Is a directory: " ++ p))
  else .ok { fs with files := setFile fs.files p c }

/-- `os.remove`: may raise `PermissionError`. -/
def removeFile (fs : FS) (p : String) : Except PyExc FS :=
  if fs.writeDenied.contains p then
    .error (.permissionError ("[Errno 13] Permission denied: " ++ p))
  else .ok { fs with files := fs.files.filter (fun kv => kv.1 != p) }

/-- `os.makedirs(p, exist_ok=True)`: create `p` and any missing
ancestors. -/
def makedirs (fs : FS) (p : String) : Except PyExc FS :=
  if fs.writeDenied.contains p then
    .error (.permissionError ("[Errno 13] Permission denied: " ++ p))
  else .ok { fs with
    dirs := fs.dirs ++ (mkdirsPaths p).filter (fun d => !fs.dirs.contains d) }

/-- `os.mkdir`: single-level directory creation; raises
`FileNotFoundError` when the parent is missing. -/
def mkdirOne (fs : FS) (p : String) : Except PyExc FS :=
  if fs.writeDenied.contains p then
    .error (.permissionError ("[Errno 13] Permission denied: " ++ p))
  else if dirname p != "" && !fs.isDir (dirname p) then
    .error (.fileNotFoundError ("[Errno 2] No such file or directory: " ++ p))
  else .ok { fs with dirs := fs.dirs ++ [p] }

end FS

/-! ## File tools (`file_tools.py`)

Each tool is the embedding of its Python function: the `try` body is an
`Except` computation (errors carry the filesystem state at the raise point
for the state-mutating tools), and the function wraps it with one match arm
per `except` clause.  The outer result type is still `Except PyExc _`: an
`.error` outcome means an exception escaped the tool to its caller. -/

/-- Embedding of `read_file` (file_tools.py lines 9-56). -/
def read_file (fs : FS) (home filepath : String) : Except PyExc String :=
  let fp := expanduser home filepath
  let body : Except PyExc String :=
    if !fs.pathExists fp then .ok ("❌ Error: File not found: " ++ fp)
    else if !fs.isFile fp then .ok ("❌ Error: " ++ fp ++ " is not a file")
    else
      match fs.readText fp with
      | .error e => .error e
      | .ok content =>
        .ok ("✓ File: " ++ fp ++ "\nSize: " ++ toString (fs.getsize fp)
          ++ " bytes | Lines: " ++ toString (pyLineCount content) ++ "\n\n" ++ content)
  match body with
  | .ok s => .ok s
  | .error (.permissionError _) => .ok ("❌ Error: Permission denied to read " ++ fp)
  | .error (.unicodeDecodeError _) =>
      .ok ("❌ Error: " ++ fp ++ " is not a text file (binary content)")
  | .error e => .ok ("❌ Error reading " ++ fp ++ ": " ++ e.str)

/-- The already-exists refusal message of `write_file`
(file_tools.py line 80). -/
def writeExistsMsg (fp : String) : String :=
  "❌ Error: File already exists: " ++ fp
    ++ "\nUse overwrite=True to replace it, or use edit_file to modify it."

/-- Embedding of `write_file` (file_tools.py lines 59-100).  Returns the
reply string together with the filesystem after the call. -/
def write_file (fs : FS) (home filepath content : String) (overwrite : Bool) :
    Except PyExc (String × FS) :=
  let fp := expanduser home filepath
  let body : Except (PyExc × FS) (String × FS) :=
    if fs.pathExists fp && !overwrite then .ok (writeExistsMsg fp, fs)
    else
      let parent := dirname fp
      match (if parent != "" then fs.makedirs parent else .ok fs) with
      | .error e => .error (e, fs)
      | .ok fs1 =>
        match fs1.writeText fp content with
        | .error e => .error (e, fs1)
        | .ok fs2 =>
          .ok ("✓ Created " ++ fp ++ "\nSize: " ++ toString (fs2.getsize fp)
            ++ " bytes | Lines: " ++ toString (pyLineCount content), fs2)
  match body with
  | .ok r => .ok r
  | .error (.permissionError _, fsx) =>
      .ok ("❌ Error: Permission denied to write " ++ fp, fsx)
  | .error (e, fsx) => .ok ("❌ Error writing " ++ fp ++ ": " ++ e.str, fsx)

/-- The success message of `edit_file` (file_tools.py lines 155-161). -/
def editSuccessMsg (fp old_text new_text : String) (occurrences : Nat) : String :=
  "✓ Edited " ++ fp ++ "\nReplaced " ++ toString occurrences
    ++ " occurrence(s)\nBackup saved: " ++ (fp ++ ".bak")
    ++ "\n\nChanges:\n  - Old: " ++ pyTake 50 old_text
    ++ "...\n  + New: " ++ pyTake 50 new_text ++ "..."

/-- Embedding of `edit_file` (file_tools.py lines 103-170): read the
content, write the `.bak` backup, then write the content with every
occurrence of `old_text` replaced. -/
def edit_file (fs : FS) (home filepath old_text new_text : String) :
    Except PyExc (String × FS) :=
  let fp := expanduser home filepath
  let body : Except (PyExc × FS) (String × FS) :=
    if !fs.pathExists fp then .ok ("❌ Error: File not found: " ++ fp, fs)
    else if !fs.isFile fp then .ok ("❌ Error: " ++ fp ++ " is not a file", fs)
    else
      match fs.readText fp with
      | .error e => .error (e, fs)
      | .ok content =>
        if !pyContains old_text content then
          .ok ("❌ Error: Text not found in " ++ fp ++ "\nSearched for: "
            ++ pyTake 100 old_text ++ "...", fs)
        else
          match fs.writeText (fp ++ ".bak") content with
          | .error e => .error (e, fs)
          | .ok fs1 =>
            let new_content := pyReplace old_text new_text content
            let occurrences := pyCount old_text content
            match fs1.writeText fp new_content with
            | .error e => .error (e, fs1)
            | .ok fs2 => .ok (editSuccessMsg fp old_text new_text occurrences, fs2)
  match body with
  | .ok r => .ok r
  | .error (.permissionError _, fsx) =>
      .ok ("❌ Error: Permission denied to edit " ++ fp, fsx)
  | .error (.unicodeDecodeError _, fsx) =>
      .ok ("❌ Error: " ++ fp ++ " is not a text file", fsx)
  | .error (e, fsx) => .ok ("❌ Error editing " ++ fp ++ ": " ++ e.str, fsx)

/-- Entry names of a directory (`os.listdir`), in filesystem order:
child directories first (in `dirs` order), then child files. -/
def listdirNames (fs : FS) (p : String) : List String :=
  (fs.dirs.filter (fun d => dirname d == p)).map basename
    ++ ((fs.files.map (·.1)).filter (fun f => dirname f == p)).map basename

/-- A hidden entry: its name begins with a dot. -/
def isHiddenName (n : String) : Bool := startsWithL ".".data n.data

/-- The `(root, files)` nodes visited by `os.walk` top-down, with hidden
directories pruned from descent (and hidden files removed) when
`show_hidden` is false — embedding the in-place `dirs[:]` filtering.  The
fuel argument bounds the depth; `fs.dirs.length + 1` suffices on any
filesystem whose directories form a tree. -/
def walkNodes (fs : FS) (show_hidden : Bool) : Nat → String → List (String × List String)
  | 0, _ => []
  | n + 1, root =>
    let dnames0 := (fs.dirs.filter (fun d => dirname d == root)).map basename
    let dnames := if show_hidden then dnames0 else dnames0.filter (fun d => !isHiddenName d)
    let fnames0 := ((fs.files.map (·.1)).filter (fun f => dirname f == root)).map basename
    let fnames := if show_hidden then fnames0 else fnames0.filter (fun f => !isHiddenName f)
    (root, fnames) :: (dnames.map (fun d => walkNodes fs show_hidden n (pyJoin root d))).flatten

/-- The lines contributed by one `os.walk` node in the recursive branch of
`list_directory` (file_tools.py lines 205-219): the directory heading, then
its files sorted, each with its byte size; the indentation level comes from
`root.replace(path, '').count(os.sep)`. -/
def renderWalkNode (fs : FS) (path : String) (node : String × List String) : List String :=
  let root := node.1
  let level := pyCount "/" (pyReplace path "" root)
  let indent := String.join (List.replicate level "  ")
  (indent ++ "📁 " ++ basename root ++ "/")
    :: (sortStr node.2).map (fun f =>
      indent ++ "  📄 " ++ f ++ " (" ++ toString (fs.getsize (pyJoin root f)) ++ " bytes)")

/-- The formatted directory entries of the non-recursive branch
(file_tools.py lines 237-243), for sorted, hidden-filtered entry names. -/
def nonRecDirLines (fs : FS) (p : String) (items : List String) : List String :=
  (items.filter (fun i => fs.isDir (pyJoin p i))).map (fun i => "📁 " ++ i ++ "/")

/-- The formatted file entries of the non-recursive branch
(file_tools.py lines 237-243). -/
def nonRecFileLines (fs : FS) (p : String) (items : List String) : List String :=
  (items.filter (fun i => !fs.isDir (pyJoin p i))).map
    (fun i => "📄 " ++ i ++ " (" ++ toString (fs.getsize (pyJoin p i)) ++ " bytes)")

/-- Embedding of `list_directory` (file_tools.py lines 173-258). -/
def list_directory (fs : FS) (cwd home path : String) (recursive show_hidden : Bool) :
    Except PyExc String :=
  let p := expanduser home path
  let body : Except PyExc String :=
    if !fs.pathExists p then .ok ("❌ Error: Directory not found: " ++ p)
    else if !fs.isDir p then .ok ("❌ Error: " ++ p ++ " is not a directory")
    else if fs.readDenied.contains p then
      .error (.permissionError ("[Errno 13] Permission denied: " ++ p))
    else
      let header := "📁 Contents of: " ++ pyAbspath cwd p ++ "\n"
      if recursive then
        let nodes := walkNodes fs show_hidden (fs.dirs.length + 1) p
        .ok (String.intercalate "\n" (header :: (nodes.map (renderWalkNode fs p)).flatten))
      else
        let items0 := listdirNames fs p
        let items1 := if show_hidden then items0 else items0.filter (fun i => !isHiddenName i)
        let items := sortStr items1
        let ds := nonRecDirLines fs p items
        let fls := nonRecFileLines fs p items
        .ok (String.intercalate "\n" (header :: ds ++ fls
          ++ ["\nTotal: " ++ toString ds.length ++ " directories, "
              ++ toString fls.length ++ " files"]))
  match body with
  | .ok s => .ok s
  | .error (.permissionError _) => .ok ("❌ Error: Permission denied to access " ++ p)
  | .error e => .ok ("❌ Error listing directory " ++ p ++ ": " ++ e.str)

/-- The two-step-safety warning of `delete_file`
(file_tools.py lines 281-285). -/
def deleteWarnMsg : String :=
  "⚠️ Deletion requires explicit confirmation.\nUse: delete_file(filepath, confirm=True)\n\nWARNING: This operation cannot be undone!"

/-- Embedding of `delete_file` (file_tools.py lines 261-308): the confirm
flag is evaluated first, before any filesystem access. -/
def delete_file (fs : FS) (home filepath : String) (confirm : Bool) :
    Except PyExc (String × FS) :=
  let body : Except (PyExc × FS) (String × FS) :=
    if !confirm then .ok (deleteWarnMsg, fs)
    else
      let fp := expanduser home filepath
      if !fs.pathExists fp then .ok ("❌ Error: File not found: " ++ fp, fs)
      else if !fs.isFile fp then
        .ok ("❌ Error: " ++ fp ++ " is not a file (use a different method for directories)", fs)
      else
        let size := fs.getsize fp
        match fs.removeFile fp with
        | .error e => .error (e, fs)
        | .ok fs1 => .ok ("✓ Deleted " ++ fp ++ " (" ++ toString size ++ " bytes)", fs1)
  match body with
  | .ok r => .ok r
  | .error (.permissionError _, fsx) =>
      .ok ("❌ Error: Permission denied to delete " ++ expanduser home filepath, fsx)
  | .error (e, fsx) =>
      .ok ("❌ Error deleting " ++ expanduser home filepath ++ ": " ++ e.str, fsx)

/-- Embedding of `create_directory` (file_tools.py lines 311-348). -/
def create_directory (fs : FS) (home path : String) (parents : Bool) :
    Except PyExc (String × FS) :=
  let p := expanduser home path
  let body : Except (PyExc × FS) (String × FS) :=
    if fs.pathExists p then
      if fs.isDir p then .ok ("ℹ️ Directory already exists: " ++ p, fs)
      else .ok ("❌ Error: " ++ p ++ " exists but is not a directory", fs)
    else
      match (if parents then fs.makedirs p else fs.mkdirOne p) with
      | .error e => .error (e, fs)
      | .ok fs1 => .ok ("✓ Created directory: " ++ p, fs1)
  match body with
  | .ok r => .ok r
  | .error (.permissionError _, fsx) =>
      .ok ("❌ Error: Permission denied to create " ++ p, fsx)
  | .error (e, fsx) => .ok ("❌ Error creating directory " ++ p ++ ": " ++ e.str, fsx)

/-! ## Shell tools (`shell_tools.py`)

`subprocess.run` and the psutil metrics are external effects, modelled as
oracle arguments: `.error e` is the call raising `e`, `.ok r` its normal
result. -/

/-- The observable result of a completed `subprocess.run`. -/
structure CompletedProcess where
  stdout : String
  stderr : String
  returncode : Int
deriving DecidableEq, Repr

/-- Accumulating splitter for `str.split()`: gather the current word
(reversed) and cut at whitespace runs. -/
def wordsAux : List Char → List Char → List String
  | [], acc => if acc.isEmpty then [] else [acc.reverse.asString]
  | c :: t, acc =>
    if c.isWhitespace then
      (if acc.isEmpty then wordsAux t [] else acc.reverse.asString :: wordsAux t [])
    else wordsAux t (c :: acc)

/-- Python `command.split()`: split on whitespace runs, dropping empty
pieces. -/
def pySplitWs (s : String) : List String := wordsAux s.data []

/-- Embedding of `execute_shell_command` (shell_tools.py lines 11-73).
`runRes` is the `subprocess.run` oracle.  Note the `except
FileNotFoundError` clause evaluates `command.split()[0]`, which itself
raises `IndexError` when the command string has no tokens; an exception
raised inside an except clause escapes the function, hence the `.error`
outcome in that corner. -/
def execute_shell_command (command : String) (timeoutSec : Nat)
    (runRes : Except PyExc CompletedProcess) : Except PyExc String :=
  let body : Except PyExc String :=
    match runRes with
    | .error e => .error e
    | .ok result =>
      let output :=
        (if result.stdout != "" then ["📤 Output:", pyStrip result.stdout] else [])
          ++ (if result.stderr != "" then ["\n⚠️ Errors/Warnings:", pyStrip result.stderr] else [])
          ++ [if result.returncode != 0 then "\n❌ Exit code: " ++ toString result.returncode
              else "\n✓ Exit code: 0 (success)"]
      .ok (if output.isEmpty then "✓ Command executed (no output)"
           else String.intercalate "\n" output)
  match body with
  | .ok s => .ok s
  | .error (.timeoutExpired _) =>
      .ok ("❌ Error: Command timed out after " ++ toString timeoutSec
        ++ " seconds\nCommand: " ++ command)
  | .error (.fileNotFoundError _) =>
      match (pySplitWs command).head? with
      | some tok => .ok ("❌ Error: Command not found: " ++ tok)
      | none => .error (.indexError "list index out of range")
  | .error e => .ok ("❌ Error executing command: " ++ e.str ++ "\nCommand: " ++ command)

/-- Embedding of `get_current_directory` (shell_tools.py lines 76-116):
`gitRes` is the oracle for the `git rev-parse --show-toplevel` subprocess;
the inner bare `except` turns any of its faults into the plain
current-directory reply. -/
def get_current_directory (cwd : String) (gitRes : Except PyExc CompletedProcess) :
    Except PyExc String :=
  let body : Except PyExc String :=
    let gitPart : Option String :=
      match gitRes with
      | .error _ => none
      | .ok r =>
        if r.returncode == 0 then
          let repo_root := pyStrip r.stdout
          some ("📂 Current Directory: " ++ cwd ++ "\n\n🔧 Git Repository: "
            ++ basename repo_root ++ "\n📁 Repo Root: " ++ repo_root)
        else none
    match gitPart with
    | some s => .ok s
    | none => .ok ("📂 Current Directory: " ++ cwd)
  match body with
  | .ok s => .ok s
  | .error e => .ok ("❌ Error getting current directory: " ++ e.str)

/-- Embedding of `change_directory` (shell_tools.py lines 119-166): returns
the reply string together with the process working directory after the
call. -/
def change_directory (fs : FS) (home cwd path : String) :
    Except PyExc (String × String) :=
  let p := expanduser home path
  let body : Except PyExc (String × String) :=
    if !fs.pathExists p then .ok ("❌ Error: Directory not found: " ++ p, cwd)
    else if !fs.isDir p then .ok ("❌ Error: Not a directory: " ++ p, cwd)
    else if fs.readDenied.contains p then
      .error (.permissionError ("[Errno 13] Permission denied: " ++ p))
    else
      let old_dir := cwd
      let new_dir := pyAbspath cwd p
      .ok ("✓ Changed directory\n\nFrom: " ++ old_dir ++ "\nTo:   " ++ new_dir, new_dir)
  match body with
  | .ok r => .ok r
  | .error (.permissionError _) => .ok ("❌ Error: Permission denied to access " ++ p, cwd)
  | .error e => .ok ("❌ Error changing directory: " ++ e.str, cwd)

/-- Value display of `get_environment_variables`: values longer than 100
characters are truncated (shell_tools.py lines 206-208 and 219-221). -/
def truncEnvValue (v : String) : String :=
  if v.length > 100 then pyTake 100 v ++ "..." else v

/-- Dictionary lookup of a key's value in the environment. -/
def envLookup (env : List (String × String)) (k : String) : String :=
  ((env.find? (fun kv => kv.1 == k)).map (·.2)).getD ""

/-- The unfiltered branch of `get_environment_variables`
(shell_tools.py lines 213-225): sort the first 50 keys in environment
order, list them with truncated values, and note the total count. -/
def unfilteredEnvListing (env : List (String × String)) : String :=
  String.intercalate "\n"
    ("📋 Environment Variables (showing first 50):\n"
      :: (sortStr ((env.map (·.1)).take 50)).map
          (fun k => k ++ "=" ++ truncEnvValue (envLookup env k))
      ++ ["\nShowing 50 of " ++ toString env.length ++ " total variables",
          "💡 Use filter_pattern to search specific variables"])

/-- The keys retained by the filtered branch: the pattern occurs
case-insensitively in the key or in the value
(shell_tools.py lines 193-197). -/
def envFiltered (env : List (String × String)) (pat : String) :
    List (String × String) :=
  env.filter (fun kv =>
    pyContains (pyLower pat) (pyLower kv.1) || pyContains (pyLower pat) (pyLower kv.2))

/-- The filtered branch of `get_environment_variables`
(shell_tools.py lines 192-211). -/
def filteredEnvListing (env : List (String × String)) (pat : String) : String :=
  let filtered := envFiltered env pat
  if filtered.isEmpty then "ℹ️ No environment variables found matching: " ++ pat
  else
    String.intercalate "\n"
      (("🔍 Environment Variables (filtered by '" ++ pat ++ "'):\n")
        :: (sortStr (filtered.map (·.1))).map
            (fun k => k ++ "=" ++ truncEnvValue (envLookup filtered k))
        ++ ["\nTotal: " ++ toString filtered.length ++ " variables"])

/-- Embedding of `get_environment_variables` (shell_tools.py lines
169-230).  A `none` or empty pattern is falsy in Python, selecting the
unfiltered branch. -/
def get_environment_variables (env : List (String × String))
    (filter_pattern : Option String) : Except PyExc String :=
  let body : Except PyExc String :=
    match filter_pattern with
    | some pat => if pat != "" then .ok (filteredEnvListing env pat)
                  else .ok (unfilteredEnvListing env)
    | none => .ok (unfilteredEnvListing env)
  match body with
  | .ok s => .ok s
  | .error e => .ok ("❌ Error getting environment variables: " ++ e.str)

/-- The platform readings rendered by `get_system_info`. -/
structure SysParams where
  osName : String
  osRelease : String
  osVersion : String
  machine : String
  processor : String
  pyVersion : String
  pyExecutable : String
  pyPlatform : String
  cwd : String
deriving Repr

/-- Embedding of `get_system_info` (shell_tools.py lines 233-301).
`psutilLines` is the oracle for the psutil-dependent metric block: its
`.error (.importError _)` outcome is the only fault the inner
`except ImportError` clause absorbs (yielding the instructional fallback);
any other fault escapes the inner try to the outer catch-all. -/
def get_system_info (sp : SysParams) (psutilLines : Except PyExc (List String)) :
    Except PyExc String :=
  let body : Except PyExc String :=
    let info1 := ["💻 System Information\n", String.join (List.replicate 50 "="),
      "\n🖥️  Operating System:", "   OS: " ++ sp.osName ++ " " ++ sp.osRelease,
      "   Version: " ++ sp.osVersion, "   Machine: " ++ sp.machine,
      "   Processor: " ++ sp.processor,
      "\n🐍 Python:", "   Version: " ++ sp.pyVersion,
      "   Executable: " ++ sp.pyExecutable, "   Platform: " ++ sp.pyPlatform]
    let tail := ["\n📂 Current Directory:", "   " ++ sp.cwd,
      "\n" ++ String.join (List.replicate 50 "=")]
    match psutilLines with
    | .ok metricLines => .ok (String.intercalate "\n" (info1 ++ metricLines ++ tail))
    | .error (.importError _) =>
      .ok (String.intercalate "\n" (info1
        ++ ["\n💡 Install psutil for detailed CPU/Memory/Disk info:", "   pip install psutil"]
        ++ tail))
    | .error e => .error e
  match body with
  | .ok s => .ok s
  | .error e => .ok ("❌ Error getting system info: " ++ e.str)

/-! ## Helper lemmas about the filesystem model -/

theorem any_filter_ne (l : List (String × String)) (p : String) :
    (l.filter (fun kv => kv.1 != p)).any (fun kv => kv.1 == p) = false := by
  induction l with
  | nil => rfl
  | cons kv t ih =>
    by_cases h : kv.1 = p <;> simp [List.filter_cons, h, ih]

theorem find?_setFile_same (l : List (String × String)) (p c : String) :
    (FS.setFile l p c).find? (fun kv => kv.1 == p) = some (p, c) := by
  induction l with
  | nil => simp [FS.setFile]
  | cons kv t ih =>
    simp only [FS.setFile]
    split
    · simp
    · next h => simp only [List.find?, h]; exact ih

theorem find?_setFile_other (l : List (String × String)) (p c q : String) (h : q ≠ p) :
    (FS.setFile l p c).find? (fun kv => kv.1 == q) = l.find? (fun kv => kv.1 == q) := by
  have hpq : (p == q) = false := by simp [Ne.symm h]
  induction l with
  | nil => simp [FS.setFile, List.find?, hpq]
  | cons kv t ih =>
    simp only [FS.setFile]
    split
    · next hkv =>
      have hkvp : kv.1 = p := by simpa using hkv
      have h2 : (kv.1 == q) = false := by rw [hkvp]; exact hpq
      simp [List.find?, hpq, h2]
    · simp only [List.find?]
      cases hq : (kv.1 == q) <;> simp [ih]

theorem getContent_writeText_same (fs fs1 : FS) (p c : String)
    (h : fs.writeText p c = .ok fs1) : fs1.getContent p = some c := by
  unfold FS.writeText at h
  split at h
  · cases h
  · split at h
    · cases h
    · cases h
      simp [FS.getContent, find?_setFile_same]

theorem getContent_writeText_other (fs fs1 : FS) (p c q : String)
    (h : fs.writeText p c = .ok fs1) (hq : q ≠ p) :
    fs1.getContent q = fs.getContent q := by
  unfold FS.writeText at h
  split at h
  · cases h
  · split at h
    · cases h
    · cases h
      simp [FS.getContent, find?_setFile_other _ _ _ _ hq]

theorem dirs_writeText (fs fs1 : FS) (p c : String)
    (h : fs.writeText p c = .ok fs1) : fs1.dirs = fs.dirs := by
  unfold FS.writeText at h
  split at h
  · cases h
  · split at h
    · cases h
    · cases h; rfl

theorem bak_ne_self (s : String) : s ++ ".bak" ≠ s := by
  intro h
  have hlen := congrArg String.length h
  have h4 : (".bak" : String).length = 4 := rfl
  rw [String.length_append, h4] at hlen
  omega

theorem mkdirsPaths_head (p : String) (h : p ≠ "") :
    mkdirsPaths p = p :: mkdirsPaths (dirname p) := by
  conv_lhs => rw [mkdirsPaths.eq_def]
  simp [h]

theorem mkdirsPaths_empty : mkdirsPaths "" = [] := by
  rw [mkdirsPaths.eq_def]
  simp

theorem length_dirname_lt (d : String) (h : d ≠ "") :
    (dirname d).length < d.length := by
  have hd : d.data ≠ [] := by
    intro hnil
    exact h (by cases d; simp_all)
  exact dirnameL_length_lt d.data hd

theorem mkdirsPaths_length_le :
    ∀ n (d : String), d.length ≤ n → ∀ q ∈ mkdirsPaths d, q.length ≤ d.length := by
  intro n
  induction n with
  | zero =>
    intro d hd q hq
    have hde : d = "" := by
      cases d with
      | mk data =>
        cases data with
        | nil => rfl
        | cons c t => simp [String.length] at hd
    subst hde
    rw [mkdirsPaths_empty] at hq
    cases hq
  | succ n ih =>
    intro d hd q hq
    by_cases hde : d = ""
    · subst hde; rw [mkdirsPaths_empty] at hq; cases hq
    · rw [mkdirsPaths_head d hde, List.mem_cons] at hq
      rcases hq with rfl | hq
      · exact le_rfl
      · have hlt := length_dirname_lt d hde
        have := ih (dirname d) (by omega) q hq
        omega

theorem isDir_makedirs_self (fs fs1 : FS) (d : String)
    (h : fs.makedirs d = .ok fs1) (hd : d ≠ "") : fs1.isDir d = true := by
  unfold FS.makedirs at h
  split at h
  · cases h
  · cases h
    simp only [FS.isDir]
    by_cases hmem : d ∈ fs.dirs
    · simp [hmem]
    · have hin2 : d ∈ mkdirsPaths d := by
        rw [mkdirsPaths_head d hd]
        exact List.mem_cons_self _ _
      simp [hmem, hin2]

/-! ## Theorems for claims C4, C5, C6, C7, C10 -/

/-- C10: `delete_file` evaluates the confirm flag before any filesystem
check: with confirm unset it returns the warning and the unchanged
filesystem state, whatever the filesystem holds at the path (including a
missing path or a directory), never a not-found or not-a-file error. -/
theorem C10_delete_confirm_checked_first (fs : FS) (home filepath : String) :
    delete_file fs home filepath false = .ok (deleteWarnMsg, fs) := rfl

/-- C6: with confirm unset, `delete_file` performs no deletion (the state is
returned unchanged, so the target stays present) and returns the warning
string; with confirm set on an existing regular (writable) file, the file no
longer exists afterwards and the byte size in the success string is the
pre-deletion size. -/
theorem C6_delete_file_two_step (fs : FS) (home filepath : String)
    (hfile : fs.isFile (expanduser home filepath) = true)
    (hdir : fs.isDir (expanduser home filepath) = false)
    (hw : fs.writeDenied.contains (expanduser home filepath) = false) :
    delete_file fs home filepath false = .ok (deleteWarnMsg, fs)
    ∧ ∃ fs1,
        delete_file fs home filepath true
          = .ok ("✓ Deleted " ++ expanduser home filepath ++ " ("
              ++ toString (fs.getsize (expanduser home filepath)) ++ " bytes)", fs1)
        ∧ fs1.isFile (expanduser home filepath) = false
        ∧ fs1.pathExists (expanduser home filepath) = false := by
  refine ⟨rfl, ?_⟩
  set fs1 : FS := { fs with files := fs.files.filter (fun kv => kv.1 != expanduser home filepath) } with hfs1
  refine ⟨fs1, ?_, ?_, ?_⟩
  · have hw2 : expanduser home filepath ∉ fs.writeDenied := by simpa using hw
    have hrm : fs.removeFile (expanduser home filepath) = .ok fs1 := by
      simp [FS.removeFile, hw2, hfs1]
    simp [delete_file, FS.pathExists, hfile, hrm]
  · simp only [FS.isFile, hfs1]
    exact any_filter_ne fs.files (expanduser home filepath)
  · simp only [FS.pathExists, FS.isFile, FS.isDir, hfs1]
    rw [any_filter_ne fs.files (expanduser home filepath)]
    simpa [FS.isDir] using hdir

/-- Witness for C6 at a concrete input: the warning leaves the file in
place; confirmed deletion removes it and reports its 5-byte size. -/
theorem C6_delete_file_two_step_witness :
    (delete_file ⟨[("t.txt", "hello")], [], [], [], []⟩ "/h" "t.txt" false
        = .ok (deleteWarnMsg, ⟨[("t.txt", "hello")], [], [], [], []⟩))
    ∧ ∃ fs1,
        delete_file ⟨[("t.txt", "hello")], [], [], [], []⟩ "/h" "t.txt" true
          = .ok ("✓ Deleted " ++ expanduser "/h" "t.txt" ++ " ("
              ++ toString ((⟨[("t.txt", "hello")], [], [], [], []⟩ : FS).getsize
                  (expanduser "/h" "t.txt")) ++ " bytes)", fs1)
        ∧ fs1.isFile (expanduser "/h" "t.txt") = false
        ∧ fs1.pathExists (expanduser "/h" "t.txt") = false :=
  C6_delete_file_two_step ⟨[("t.txt", "hello")], [], [], [], []⟩ "/h" "t.txt"
    (by decide) (by decide) (by decide)

/-- C7: `write_file` without overwrite on an existing path leaves the
filesystem unchanged and reports the already-exists failure string; when the
path does not exist or overwrite is set (and the write itself is
permitted and the path is not a directory), the missing parent directory is
created as needed and the file afterwards holds exactly the given content,
with the reported line count computed from that content. -/
theorem C7_write_file_no_clobber (fs : FS) (home filepath content : String) :
    (fs.pathExists (expanduser home filepath) = true →
      write_file fs home filepath content false
        = .ok (writeExistsMsg (expanduser home filepath), fs))
    ∧ (∀ overwrite : Bool,
        (fs.pathExists (expanduser home filepath) = false ∨ overwrite = true) →
        fs.writeDenied.contains (expanduser home filepath) = false →
        fs.isDir (expanduser home filepath) = false →
        fs.writeDenied.contains (dirname (expanduser home filepath)) = false →
        dirname (expanduser home filepath) ≠ "" →
        ∃ fs2,
          write_file fs home filepath content overwrite
            = .ok ("✓ Created " ++ expanduser home filepath ++ "\nSize: "
                ++ toString content.utf8ByteSize ++ " bytes | Lines: "
                ++ toString (pyLineCount content), fs2)
          ∧ fs2.getContent (expanduser home filepath) = some content
          ∧ fs2.isDir (dirname (expanduser home filepath)) = true) := by
  constructor
  · intro hex
    simp [write_file, hex]
  · intro overwrite hover hw hd hpw hparent
    set fp := expanduser home filepath with hfp
    have hcond : (fs.pathExists fp && !overwrite) = false := by
      rcases hover with h | h <;> simp [h]
    set fs1 : FS := { fs with
      dirs := fs.dirs ++ (mkdirsPaths (dirname fp)).filter
        (fun d => !fs.dirs.contains d) } with hfs1
    have hpw2 : dirname fp ∉ fs.writeDenied := by simpa using hpw
    have hmk : fs.makedirs (dirname fp) = .ok fs1 := by
      simp [FS.makedirs, hpw2, hfs1]
    have hfpne : fp ≠ "" := by
      intro hfe
      exact hparent (by rw [hfe]; rfl)
    have hd1 : fs1.isDir fp = false := by
      simp only [FS.isDir, hfs1]
      cases hmem : (fs.dirs ++ (mkdirsPaths (dirname fp)).filter
          (fun d => !fs.dirs.contains d)).contains fp with
      | false => rfl
      | true =>
        exfalso
        have hmem2 := List.elem_iff.mp hmem
        rcases List.mem_append.mp hmem2 with hmem3 | hmem3
        · have : fs.isDir fp = true := by simp [FS.isDir, hmem3]
          rw [hd] at this; cases this
        · have hfp_in : fp ∈ mkdirsPaths (dirname fp) := (List.mem_filter.mp hmem3).1
          have hle := mkdirsPaths_length_le (dirname fp).length (dirname fp)
            le_rfl fp hfp_in
          have hlt := length_dirname_lt fp hfpne
          omega
    set fs2 : FS := { fs1 with files := FS.setFile fs1.files fp content } with hfs2
    have hwt : fs1.writeText fp content = .ok fs2 := by
      have hw1 : fp ∉ fs1.writeDenied := by
        show fp ∉ fs.writeDenied
        simpa using hw
      simp [FS.writeText, hw1, hd1, hfs2]
    have hc2 : fs2.getContent fp = some content :=
      getContent_writeText_same fs1 fs2 fp content hwt
    have hsize : fs2.getsize fp = content.utf8ByteSize := by
      simp [FS.getsize, hc2]
    refine ⟨fs2, ?_, hc2, ?_⟩
    · have hbne : (dirname fp != "") = true := by simpa using hparent
      simp only [write_file, ← hfp, hcond, Bool.false_eq_true, if_false, hbne,
        if_true, hmk, hwt, hsize]
    · have hfs1d : fs1.isDir (dirname fp) = true :=
        isDir_makedirs_self fs fs1 (dirname fp) hmk hparent
      have hdirs : fs2.dirs = fs1.dirs := rfl
      simpa [FS.isDir, hdirs] using hfs1d

/-- Witness for C7 at concrete inputs: writing over `a.txt` without
overwrite is refused with the state unchanged; writing `d/new.txt` succeeds
with the exact content, byte size 6 and line count 1 reported. -/
theorem C7_write_file_no_clobber_witness :
    (write_file ⟨[("a.txt", "x")], ["d"], [], [], []⟩ "/h" "a.txt" "y" false
        = .ok (writeExistsMsg (expanduser "/h" "a.txt"),
            ⟨[("a.txt", "x")], ["d"], [], [], []⟩))
    ∧ ∃ fs2,
        write_file ⟨[("a.txt", "x")], ["d"], [], [], []⟩ "/h" "d/new.txt" "hello\n" true
          = .ok ("✓ Created " ++ expanduser "/h" "d/new.txt" ++ "\nSize: "
              ++ toString ("hello\n" : String).utf8ByteSize ++ " bytes | Lines: "
              ++ toString (pyLineCount "hello\n"), fs2)
        ∧ fs2.getContent (expanduser "/h" "d/new.txt") = some "hello\n"
        ∧ fs2.isDir (dirname (expanduser "/h" "d/new.txt")) = true :=
  ⟨(C7_write_file_no_clobber ⟨[("a.txt", "x")], ["d"], [], [], []⟩ "/h" "a.txt" "y").1
      (by decide),
   (C7_write_file_no_clobber ⟨[("a.txt", "x")], ["d"], [], [], []⟩ "/h" "d/new.txt"
      "hello\n").2 true (Or.inr rfl) (by decide) (by decide) (by decide) (by decide)⟩

/-- C4: every file and shell tool returns an `.ok` string for every input
and every fault of its body — with one exception found in the code: when
`subprocess.run` raises `FileNotFoundError` and the command string has no
whitespace-separated tokens, the `except FileNotFoundError` clause of
`execute_shell_command` itself raises `IndexError` (from
`command.split()[0]`), which escapes to the caller.  The final two
conjuncts evaluate that clause at an empty and at a nonempty command. -/
theorem C4_tools_encode_failures_in_strings :
    (∀ fs home fp, ∃ s, read_file fs home fp = .ok s)
    ∧ (∀ fs home fp c ow, ∃ r, write_file fs home fp c ow = .ok r)
    ∧ (∀ fs home fp ot nt, ∃ r, edit_file fs home fp ot nt = .ok r)
    ∧ (∀ fs cwd home p rc sh, ∃ s, list_directory fs cwd home p rc sh = .ok s)
    ∧ (∀ fs home fp c, ∃ r, delete_file fs home fp c = .ok r)
    ∧ (∀ fs home p pa, ∃ r, create_directory fs home p pa = .ok r)
    ∧ (∀ cwd g, ∃ s, get_current_directory cwd g = .ok s)
    ∧ (∀ fs home cwd p, ∃ r, change_directory fs home cwd p = .ok r)
    ∧ (∀ env f, ∃ s, get_environment_variables env f = .ok s)
    ∧ (∀ sp ps, ∃ s, get_system_info sp ps = .ok s)
    ∧ execute_shell_command "" 60
        (.error (.fileNotFoundError "[Errno 2] No such file or directory"))
        = .error (.indexError "list index out of range")
    ∧ execute_shell_command "missingcmd --flag" 60
        (.error (.fileNotFoundError "[Errno 2] No such file or directory"))
        = .ok "❌ Error: Command not found: missingcmd" := by
  refine ⟨?_, ?_, ?_, ?_, ?_, ?_, ?_, ?_, ?_, ?_, rfl, rfl⟩
  · intro fs home fp
    simp only [read_file]
    split <;> exact ⟨_, rfl⟩
  · intro fs home fp c ow
    simp only [write_file]
    split <;> exact ⟨_, rfl⟩
  · intro fs home fp ot nt
    simp only [edit_file]
    split <;> exact ⟨_, rfl⟩
  · intro fs cwd home p rc sh
    simp only [list_directory]
    split <;> exact ⟨_, rfl⟩
  · intro fs home fp c
    simp only [delete_file]
    split <;> exact ⟨_, rfl⟩
  · intro fs home p pa
    simp only [create_directory]
    split <;> exact ⟨_, rfl⟩
  · intro cwd g
    simp only [get_current_directory]
    split <;> exact ⟨_, rfl⟩
  · intro fs home cwd p
    simp only [change_directory]
    split <;> exact ⟨_, rfl⟩
  · intro env f
    simp only [get_environment_variables]
    split <;> exact ⟨_, rfl⟩
  · intro sp ps
    simp only [get_system_info]
    split <;> exact ⟨_, rfl⟩

/-- C5: on a readable regular file whose content contains `old_text`,
`edit_file` stores a byte-identical backup at `path + ".bak"`, replaces all
occurrences of `old_text` by `new_text`, and the count in its success
message equals the independently recounted number of non-overlapping
occurrences in the pre-edit content.  The backup is written before the
mutation: when the main write is permission-denied, the backup still holds
the pre-edit content and the file is unchanged. -/
theorem C5_edit_file_backup_and_count (fs : FS) (home filepath old_text new_text content : String)
    (hfile : fs.isFile (expanduser home filepath) = true)
    (hread : fs.readDenied.contains (expanduser home filepath) = false)
    (hbin : fs.binary.contains (expanduser home filepath) = false)
    (hcontent : fs.getContent (expanduser home filepath) = some content)
    (hocc : pyContains old_text content = true)
    (hbakw : fs.writeDenied.contains (expanduser home filepath ++ ".bak") = false)
    (hbakd : fs.isDir (expanduser home filepath ++ ".bak") = false) :
    (fs.writeDenied.contains (expanduser home filepath) = false →
      fs.isDir (expanduser home filepath) = false →
      ∃ fs2,
        edit_file fs home filepath old_text new_text
          = .ok (editSuccessMsg (expanduser home filepath) old_text new_text
              (countIndep old_text content), fs2)
        ∧ fs2.getContent (expanduser home filepath ++ ".bak") = some content
        ∧ fs2.getContent (expanduser home filepath)
            = some (pyReplace old_text new_text content))
    ∧ (fs.writeDenied.contains (expanduser home filepath) = true →
      ∃ fs1,
        edit_file fs home filepath old_text new_text
          = .ok ("❌ Error: Permission denied to edit " ++ expanduser home filepath, fs1)
        ∧ fs1.getContent (expanduser home filepath ++ ".bak") = some content
        ∧ fs1.getContent (expanduser home filepath) = some content) := by
  set fp := expanduser home filepath with hfp
  have hpe : fs.pathExists fp = true := by simp [FS.pathExists, hfile]
  have hread2 : fp ∉ fs.readDenied := by simpa using hread
  have hbin2 : fp ∉ fs.binary := by simpa using hbin
  have hrt : fs.readText fp = .ok content := by
    simp [FS.readText, hread2, hbin2, hcontent]
  have hbakw2 : fp ++ ".bak" ∉ fs.writeDenied := by simpa using hbakw
  set fsB : FS := { fs with files := FS.setFile fs.files (fp ++ ".bak") content } with hfsB
  have hbw : fs.writeText (fp ++ ".bak") content = .ok fsB := by
    simp [FS.writeText, hbakw2, hbakd, hfsB]
  have hBbak : fsB.getContent (fp ++ ".bak") = some content := by
    simp [FS.getContent, hfsB, find?_setFile_same]
  have hBfp : fsB.getContent fp = some content := by
    simp only [FS.getContent, hfsB]
    rw [find?_setFile_other fs.files (fp ++ ".bak") content fp (Ne.symm (bak_ne_self fp))]
    exact hcontent
  constructor
  · intro hw hd
    have hw2 : fp ∉ fsB.writeDenied := by
      show fp ∉ fs.writeDenied
      simpa using hw
    have hdB : fsB.isDir fp = false := hd
    set fs2 : FS := { fsB with
      files := FS.setFile fsB.files fp (pyReplace old_text new_text content) } with hfs2
    have hwt : fsB.writeText fp (pyReplace old_text new_text content) = .ok fs2 := by
      simp [FS.writeText, hw2, hdB, hfs2]
    refine ⟨fs2, ?_, ?_, ?_⟩
    · simp only [edit_file, ← hfp, hpe, hfile, hrt, hocc, Bool.not_true,
        Bool.false_eq_true, if_false, hbw, hwt, pyCount_eq_countIndep]
    · simp only [FS.getContent, hfs2]
      rw [find?_setFile_other fsB.files fp (pyReplace old_text new_text content)
        (fp ++ ".bak") (bak_ne_self fp)]
      exact hBbak
    · simp [FS.getContent, hfs2, find?_setFile_same]
  · intro hw
    have hw2 : fp ∈ fsB.writeDenied := by
      show fp ∈ fs.writeDenied
      simpa using hw
    have hwt : fsB.writeText fp (pyReplace old_text new_text content)
        = .error (.permissionError ("[Errno 13] Permission denied: " ++ fp)) := by
      simp [FS.writeText, hw2]
    refine ⟨fsB, ?_, hBbak, hBfp⟩
    simp only [edit_file, ← hfp, hpe, hfile, hrt, hocc, Bool.not_true,
      Bool.false_eq_true, if_false, hbw, hwt]

/-! ## Environment-listing lemmas and claim C9 -/

theorem envLookup_eq (l : List (String × String)) (hn : (l.map Prod.fst).Nodup)
    (k v : String) (h : (k, v) ∈ l) : envLookup l k = v := by
  induction l with
  | nil => cases h
  | cons kv t ih =>
    rw [List.map_cons, List.nodup_cons] at hn
    rcases List.mem_cons.mp h with heq | hmem
    · subst heq
      simp [envLookup, List.find?]
    · have hk : kv.1 ≠ k := by
        intro hkk
        exact hn.1 (hkk ▸ List.mem_map.mpr ⟨(k, v), hmem, rfl⟩)
      have hbeq : (kv.1 == k) = false := by simp [hk]
      simp only [envLookup, List.find?, hbeq]
      exact ih hn.2 hmem

/-- C9: with no (or an empty, hence falsy) filter,
`get_environment_variables` renders the unfiltered listing — the first 50
environment entries, sorted, with values longer than 100 characters
truncated, and a note carrying the total variable count; with a nonempty
filter, exactly the variables whose key or value contains the pattern
case-insensitively are listed, sorted by key, each with its own (truncated)
value. -/
theorem C9_env_listing (env : List (String × String)) (pat : String)
    (hnodup : (env.map Prod.fst).Nodup) :
    (get_environment_variables env none = .ok (unfilteredEnvListing env)
      ∧ (sortStr ((env.map Prod.fst).take 50)).Sorted strLeData
      ∧ (∀ k, k ∈ sortStr ((env.map Prod.fst).take 50) ↔ k ∈ (env.map Prod.fst).take 50)
      ∧ (∀ k v, (k, v) ∈ env → k ∈ (env.map Prod.fst).take 50 →
          (k ++ "=" ++ (if v.length > 100 then pyTake 100 v ++ "..." else v))
            ∈ (sortStr ((env.map Prod.fst).take 50)).map
                (fun k2 => k2 ++ "=" ++ truncEnvValue (envLookup env k2))))
    ∧ (pat ≠ "" →
        get_environment_variables env (some pat) = .ok (filteredEnvListing env pat)
        ∧ (sortStr ((envFiltered env pat).map Prod.fst)).Sorted strLeData
        ∧ (∀ k, k ∈ sortStr ((envFiltered env pat).map Prod.fst) ↔
            ∃ v, (k, v) ∈ env ∧ (pyContains (pyLower pat) (pyLower k)
              || pyContains (pyLower pat) (pyLower v)) = true)
        ∧ (∀ k v, (k, v) ∈ envFiltered env pat →
            envLookup (envFiltered env pat) k = v)) := by
  constructor
  · refine ⟨rfl, sortStr_sorted _, fun k => mem_sortStr, ?_⟩
    intro k v hkv htake
    have hlook : envLookup env k = v := envLookup_eq env hnodup k v hkv
    refine List.mem_map.mpr ⟨k, mem_sortStr.mpr htake, ?_⟩
    rw [hlook]
    rfl
  · intro hpat
    have hpat2 : (pat != "") = true := by simpa using hpat
    refine ⟨by simp [get_environment_variables, hpat2], sortStr_sorted _, ?_, ?_⟩
    · intro k
      rw [mem_sortStr]
      simp only [envFiltered, List.mem_map, List.mem_filter]
      constructor
      · rintro ⟨⟨k2, v⟩, ⟨hmem, hcond⟩, rfl⟩
        exact ⟨v, hmem, hcond⟩
      · rintro ⟨v, hmem, hcond⟩
        exact ⟨(k, v), ⟨hmem, hcond⟩, rfl⟩
    · intro k v hkv
      have hnf : ((envFiltered env pat).map Prod.fst).Nodup :=
        hnodup.sublist ((List.filter_sublist _).map _)
      exact envLookup_eq _ hnf k v hkv

/-- Witness for C9 at a concrete environment: the unfiltered listing, the
filtered listing for pattern `a` (matching only key `A`), and the value
lookup of the one matching entry. -/
theorem C9_env_listing_witness :
    get_environment_variables [("B", "2"), ("A", "1")] none
      = .ok (unfilteredEnvListing [("B", "2"), ("A", "1")])
    ∧ get_environment_variables [("B", "2"), ("A", "1")] (some "a")
      = .ok (filteredEnvListing [("B", "2"), ("A", "1")] "a")
    ∧ envLookup (envFiltered [("B", "2"), ("A", "1")] "a") "A" = "1" :=
  ⟨(C9_env_listing [("B", "2"), ("A", "1")] "a" (by decide)).1.1,
   ((C9_env_listing [("B", "2"), ("A", "1")] "a" (by decide)).2 (by decide)).1,
   ((C9_env_listing [("B", "2"), ("A", "1")] "a" (by decide)).2 (by decide)).2.2.2
     "A" "1" (by decide)⟩

/-! ## Claim C8: the listing order

The counterexample below shows the claim false in recursive mode: `os.walk`
emits a directory's files before its subdirectory headings, so a directory
entry can follow a file entry. -/

/-- Split a rendered listing into its lines. -/
def splitNLAux : List Char → List Char → List String
  | [], acc => [acc.reverse.asString]
  | c :: t, acc =>
    if c == '\n' then acc.reverse.asString :: splitNLAux t []
    else splitNLAux t (c :: acc)

/-- The lines of a rendered listing. -/
def linesOf (s : String) : List String := splitNLAux s.data []

/-- A line describing a file entry of a listing. -/
def isFileEntryLine (l : String) : Bool := pyContains "📄" l

/-- A line describing a directory entry of a listing (the header line is
not an entry). -/
def isDirEntryLine (l : String) : Bool :=
  pyContains "📁" l && !(pyContains "Contents of" l)

/-- The claim's ordering property on a rendered listing: no directory entry
line occurs after a file entry line. -/
def dirsBeforeFilesB : List String → Bool
  | [] => true
  | l :: t =>
    (!(isFileEntryLine l) || t.all (fun m => !(isDirEntryLine m)))
      && dirsBeforeFilesB t

/-- A three-entry filesystem: directory `d` holding file `a.txt` and
subdirectory `sub`. -/
def fsC : FS := ⟨[("d/a.txt", "hi")], ["d", "d/sub"], [], [], []⟩

/-- Counterexample to C8 as stated: on `fsC`, the recursive listing of `d`
prints the file entry `a.txt` before the directory entry `sub/`, so
directories do not appear before files in recursive mode (the subdirectory
heading follows its parent's files). -/
theorem C8_counterexample_recursive_order :
    list_directory fsC "/home" "/h" "d" true false
      = .ok "📁 Contents of: /home/d\n\n📁 d/\n  📄 a.txt (2 bytes)\n  📁 sub/"
    ∧ dirsBeforeFilesB (linesOf
        "📁 Contents of: /home/d\n\n📁 d/\n  📄 a.txt (2 bytes)\n  📁 sub/") = false := by
  constructor
  · have hlevel1 : pyCount "/" (pyReplace "d" "" "d") = 0 := by
      have h1 : pyReplace "d" "" "d" = "" := by
        show (replaceAux 'd' [] [] ['d']).asString = ""
        simp [replaceAux, startsWithL]
        decide
      rw [h1]
      show countAux '/' [] [] = 0
      simp [countAux]
    have hlevel2 : pyCount "/" (pyReplace "d" "" "d/sub") = 1 := by
      have h1 : pyReplace "d" "" "d/sub" = "/sub" := by
        show (replaceAux 'd' [] [] ['d', '/', 's', 'u', 'b']).asString = "/sub"
        simp [replaceAux, startsWithL]
        decide
      rw [h1]
      show countAux '/' [] ['/', 's', 'u', 'b'] = 1
      simp [countAux, startsWithL]
    have e1 : renderWalkNode fsC "d" ("d", ["a.txt"]) = ["📁 d/", "  📄 a.txt (2 bytes)"] := by
      simp only [renderWalkNode, hlevel1]
      decide
    have e2 : renderWalkNode fsC "d" ("d/sub", []) = ["  📁 sub/"] := by
      simp only [renderWalkNode, hlevel2]
      decide
    have hwalk : walkNodes fsC false 3 "d" = [("d", ["a.txt"]), ("d/sub", [])] := by decide
    have hbase : list_directory fsC "/home" "/h" "d" true false
        = .ok (String.intercalate "\n" ("📁 Contents of: /home/d\n"
            :: ((walkNodes fsC false 3 "d").map (renderWalkNode fsC "d")).flatten)) := rfl
    rw [hbase, hwalk]
    simp only [List.map_cons, List.map_nil, e1, e2]
    rfl
  · decide

/-- C8 (amended): in non-recursive mode the listing is sorted with
directories before files, per-file byte sizes, and hidden entries excluded
unless `show_hidden`; in recursive mode each directory's files are listed
sorted (with sizes and the same hidden filtering) under the directory's
heading, but a subdirectory's heading appears after its parent's file
entries and subdirectories are visited in filesystem order, so entries are
not globally sorted with directories first. -/
theorem C8_list_directory_order (fs : FS) (cwd home path : String) (sh : Bool)
    (hd : fs.isDir (expanduser home path) = true)
    (hr : fs.readDenied.contains (expanduser home path) = false) :
    (∃ items,
      items = sortStr (if sh then listdirNames fs (expanduser home path)
        else (listdirNames fs (expanduser home path)).filter (fun i => !isHiddenName i))
      ∧ list_directory fs cwd home path false sh
        = .ok (String.intercalate "\n"
            (("📁 Contents of: " ++ pyAbspath cwd (expanduser home path) ++ "\n")
              :: nonRecDirLines fs (expanduser home path) items
              ++ nonRecFileLines fs (expanduser home path) items
              ++ ["\nTotal: "
                  ++ toString (nonRecDirLines fs (expanduser home path) items).length
                  ++ " directories, "
                  ++ toString (nonRecFileLines fs (expanduser home path) items).length
                  ++ " files"]))
      ∧ (items.filter (fun i => fs.isDir (pyJoin (expanduser home path) i))).Sorted strLeData
      ∧ (items.filter (fun i => !fs.isDir (pyJoin (expanduser home path) i))).Sorted strLeData
      ∧ (∀ i, i ∈ items ↔ i ∈ listdirNames fs (expanduser home path)
          ∧ (sh = false → isHiddenName i = false)))
    ∧ (list_directory fs cwd home path true sh
        = .ok (String.intercalate "\n"
            (("📁 Contents of: " ++ pyAbspath cwd (expanduser home path) ++ "\n")
              :: ((walkNodes fs sh (fs.dirs.length + 1) (expanduser home path)).map
                  (renderWalkNode fs (expanduser home path))).flatten))
      ∧ ∀ nd ∈ walkNodes fs sh (fs.dirs.length + 1) (expanduser home path),
          (sortStr nd.2).Sorted strLeData) := by
  set p := expanduser home path with hp
  have hpe : fs.pathExists p = true := by simp [FS.pathExists, hd]
  have hr2 : p ∉ fs.readDenied := by simpa using hr
  constructor
  · refine ⟨sortStr (if sh then listdirNames fs p
      else (listdirNames fs p).filter (fun i => !isHiddenName i)), rfl, ?_, ?_, ?_, ?_⟩
    · simp only [list_directory, ← hp, hpe, hd, hr2, Bool.not_true,
        Bool.false_eq_true, if_false, nonRecDirLines, nonRecFileLines]
      simp [hr2]
    · exact (sortStr_sorted _).sublist (List.filter_sublist _)
    · exact (sortStr_sorted _).sublist (List.filter_sublist _)
    · intro i
      rw [mem_sortStr]
      cases sh with
      | true => simp
      | false => simp [List.mem_filter]
  · constructor
    · simp only [list_directory, ← hp, hpe, hd, hr2, Bool.not_true,
        Bool.false_eq_true, if_false]
      simp [hr2]
    · intro nd _
      exact sortStr_sorted _

/-- Witness for C8 at a concrete input: the non-recursive listing of `fsC`
sorts `sub/` before `a.txt` with directories first, and the recursive
listing matches the walk rendering with sorted per-directory files. -/
theorem C8_list_directory_order_witness :
    (∃ items,
      items = sortStr ((listdirNames fsC "d").filter (fun i => !isHiddenName i))
      ∧ list_directory fsC "/home" "/h" "d" false false
        = .ok (String.intercalate "\n"
            (("📁 Contents of: " ++ pyAbspath "/home" "d" ++ "\n")
              :: nonRecDirLines fsC "d" items
              ++ nonRecFileLines fsC "d" items
              ++ ["\nTotal: " ++ toString (nonRecDirLines fsC "d" items).length
                  ++ " directories, "
                  ++ toString (nonRecFileLines fsC "d" items).length ++ " files"]))
      ∧ (items.filter (fun i => fsC.isDir (pyJoin "d" i))).Sorted strLeData
      ∧ (items.filter (fun i => !fsC.isDir (pyJoin "d" i))).Sorted strLeData
      ∧ (∀ i, i ∈ items ↔ i ∈ listdirNames fsC "d"
          ∧ (false = false → isHiddenName i = false))) := by
  have h := (C8_list_directory_order fsC "/home" "/h" "d" false
    (by decide) (by decide)).1
  simpa [expanduser, startsWithL] using h

/-- Witness for C5 at a concrete input: editing `abcabc` with pattern
`abc` writes the backup, replaces both occurrences and reports the
independently recounted 2. -/
theorem C5_edit_file_backup_and_count_witness :
    ∃ fs2,
      edit_file ⟨[("c.txt", "abcabc")], [], [], [], []⟩ "/h" "c.txt" "abc" "x"
        = .ok (editSuccessMsg (expanduser "/h" "c.txt") "abc" "x"
            (countIndep "abc" "abcabc"), fs2)
      ∧ fs2.getContent (expanduser "/h" "c.txt" ++ ".bak") = some "abcabc"
      ∧ fs2.getContent (expanduser "/h" "c.txt") = some (pyReplace "abc" "x" "abcabc") :=
  (C5_edit_file_backup_and_count ⟨[("c.txt", "abcabc")], [], [], [], []⟩ "/h" "c.txt"
    "abc" "x" "abcabc" (by decide) (by decide) (by decide) (by decide) (by decide)
    (by decide) (by decide)).1 (by decide) (by decide)
